import Mathlib

/-!
Verification of the telemetry decoding and dispatch core of the
seitor-tesla-telemetry Home Assistant integration.

The definitions below are a shallow embedding of the Python sources:
  ha-integration/custom_components/tesla_telemetry_local/kafka_consumer.py
  ha-integration/custom_components/tesla_telemetry_local/mqtt_client.py
Pure functions become Lean functions, the mutable consumer state becomes
explicit state passing, Python exceptions become Except values, and the
Python dict (insertion ordered, unique keys, later assignment overwrites)
becomes an association list maintained by an overwriting insert.
-/

namespace TeslaTelemetry

/-- Charging state enum of the generated protobuf module.  The generated
file is a placeholder in the repository; the constant names are the ones
used by tools/testing/generate_mock_message.py
(ChargeStateDisconnected, ChargeStateCharging). -/
inductive ChargingState
  | ChargeStateDisconnected
  | ChargeStateCharging
deriving DecidableEq

/-- Protobuf enum Name: returns the symbolic name of the constant exactly
as declared in the schema, mirroring google.protobuf EnumTypeWrapper.Name. -/
def ChargingState.Name : ChargingState → String
  | .ChargeStateDisconnected => "ChargeStateDisconnected"
  | .ChargeStateCharging => "ChargeStateCharging"

/-- Shift state enum of the generated protobuf module; constant names as
used by tools/testing/generate_mock_message.py (ShiftStateP, ShiftStateD). -/
inductive ShiftState
  | ShiftStateP
  | ShiftStateD
deriving DecidableEq

/-- Protobuf enum Name for ShiftState. -/
def ShiftState.Name : ShiftState → String
  | .ShiftStateP => "ShiftStateP"
  | .ShiftStateD => "ShiftStateD"

/-- Field key enum of the telemetry schema, with the members that the
repository's own tools use (tools/testing/generate_mock_message.py). -/
inductive Field
  | Location
  | GpsHeading
  | VehicleSpeed
  | Gear
  | Soc
  | EstBatteryRange
  | Odometer
  | InsideTemp
  | OutsideTemp
  | ChargeState
  | Locked
  | DoorState
  | SentryMode
  | ChargerVoltage
  | ChargeAmps
  | TimeToFullCharge
  | ChargeLimitSoc
deriving DecidableEq

/-- Protobuf enum Name for Field, as used by
kafka_consumer.py line 190: vehicle_data_pb2.Field.Name(datum.key). -/
def Field.Name : Field → String
  | .Location => "Location"
  | .GpsHeading => "GpsHeading"
  | .VehicleSpeed => "VehicleSpeed"
  | .Gear => "Gear"
  | .Soc => "Soc"
  | .EstBatteryRange => "EstBatteryRange"
  | .Odometer => "Odometer"
  | .InsideTemp => "InsideTemp"
  | .OutsideTemp => "OutsideTemp"
  | .ChargeState => "ChargeState"
  | .Locked => "Locked"
  | .DoorState => "DoorState"
  | .SentryMode => "SentryMode"
  | .ChargerVoltage => "ChargerVoltage"
  | .ChargeAmps => "ChargeAmps"
  | .TimeToFullCharge => "TimeToFullCharge"
  | .ChargeLimitSoc => "ChargeLimitSoc"

/-- Wire-format value container: the oneof of the protobuf Value message.
WhichOneof returning Python None is the unset constructor; the invalid
member of the oneof is the invalid constructor.  Floating point payloads
are carried as rationals: the decoder only passes them through, it never
computes with them. -/
inductive ProtoValue
  | unset
  | invalid
  | string_value (s : String)
  | int_value (n : Int)
  | long_value (n : Int)
  | float_value (q : Rat)
  | double_value (q : Rat)
  | boolean_value (b : Bool)
  | location_value (latitude longitude : Rat)
  | charging_value (c : ChargingState)
  | shift_state_value (s : ShiftState)
  | time_value (hour minute second : Int)
  | door_value (df dr pf pr tf tr : Bool)
  | tire_location_value (fl fr rl rr : Bool)
deriving DecidableEq

/-- Canonical decoded value: the universe of Python values that
TeslaKafkaConsumer._extract_value can return (and that the parsed-message
dict stores).  The structured dict returns of the source (location, time,
doors, tire positions) become dedicated constructors with the same
named components. -/
inductive TValue
  | str (s : String)
  | int (n : Int)
  | float (q : Rat)
  | bool (b : Bool)
  | location (latitude longitude : Rat)
  | time (hour minute second : Int)
  | doors (driver_front driver_rear passenger_front passenger_rear trunk_front trunk_rear : Bool)
  | tires (front_left front_right rear_left rear_right : Bool)
deriving DecidableEq

/-- Runtime type of a canonical value. -/
inductive TKind
  | string
  | int
  | float
  | bool
  | location
  | time
  | doors
  | tires
deriving DecidableEq

/-- Kind of a decoded value. -/
def TValue.kind : TValue → TKind
  | .str _ => .string
  | .int _ => .int
  | .float _ => .float
  | .bool _ => .bool
  | .location _ _ => .location
  | .time _ _ _ => .time
  | .doors _ _ _ _ _ _ => .doors
  | .tires _ _ _ _ => .tires

/-- Kind that each active wire variant tag must decode to (string, int,
float, bool, location pair or structured record); none for an unset or
invalid tag. -/
def tagKind : ProtoValue → Option TKind
  | .unset => none
  | .invalid => none
  | .string_value _ => some .string
  | .int_value _ => some .int
  | .long_value _ => some .int
  | .float_value _ => some .float
  | .double_value _ => some .float
  | .boolean_value _ => some .bool
  | .location_value _ _ => some .location
  | .charging_value _ => some .string
  | .shift_state_value _ => some .string
  | .time_value _ _ _ => some .time
  | .door_value _ _ _ _ _ _ => some .doors
  | .tire_location_value _ _ _ _ => some .tires

namespace TeslaKafkaConsumer

/-- Embedding of TeslaKafkaConsumer._extract_value
(kafka_consumer.py lines 203-287): branch per oneof tag, in source order;
None for an unset oneof or the invalid member; enum variants go through
the protobuf Name function. -/
def extract_value : ProtoValue → Option TValue
  | .unset => none
  | .invalid => none
  | .string_value s => some (.str s)
  | .int_value n => some (.int n)
  | .long_value n => some (.int n)
  | .float_value q => some (.float q)
  | .double_value q => some (.float q)
  | .boolean_value b => some (.bool b)
  | .location_value lat lon => some (.location lat lon)
  | .charging_value c => some (.str (ChargingState.Name c))
  | .shift_state_value s => some (.str (ShiftState.Name s))
  | .time_value h m s => some (.time h m s)
  | .door_value df dr pf pr tf tr => some (.doors df dr pf pr tf tr)
  | .tire_location_value fl fr rl rr => some (.tires fl fr rl rr)

end TeslaKafkaConsumer

/-- Parsed-message dictionary: a Python dict from field name to decoded
value, modelled as an insertion-ordered association list with unique keys. -/
abbrev TDict := List (String × TValue)

/-- Python dict assignment d[k] = v: overwrites in place when the key is
present, appends at the end otherwise. -/
def dictInsert (m : TDict) (k : String) (v : TValue) : TDict :=
  if m.any (fun p => p.1 == k) then
    m.map (fun p => if p.1 == k then (k, v) else p)
  else m ++ [(k, v)]

/-- Python dict lookup d[k] (with d.get returning none when absent). -/
def dictGet (m : TDict) (k : String) : Option TValue :=
  (m.find? (fun p => p.1 == k)).map (fun p => p.2)

/-- One entry of the repeated data field of the protobuf Payload message. -/
structure Datum where
  key : Field
  value : ProtoValue
deriving DecidableEq

/-- Protobuf Payload message: vin (empty string when absent, matching
Python string truthiness), optional created_at timestamp in epoch seconds,
and the repeated data field. -/
structure Payload where
  vin : String
  created_at : Option Int
  data : List Datum
deriving DecidableEq

/-- Raw Kafka record value: either bytes that ParseFromString accepts,
carrying a Payload, or bytes on which it raises (malformed). -/
inductive RawMessage
  | wellFormed (p : Payload)
  | malformed
deriving DecidableEq

namespace TeslaKafkaConsumer

/-- One iteration of the data loop of TeslaKafkaConsumer._parse_protobuf
(kafka_consumer.py lines 189-194): store the decoded value under the
field's symbolic name, or skip the datum when the decoder returned None. -/
def parseStep (acc : TDict) (datum : Datum) : TDict :=
  match extract_value datum.value with
  | some v => dictInsert acc (Field.Name datum.key) v
  | none => acc

/-- Dictionary built by TeslaKafkaConsumer._parse_protobuf
(kafka_consumer.py lines 177-196) from a successfully parsed Payload:
vin when truthy, timestamp when created_at is set, then one entry per
datum whose value decodes to something other than None. -/
def payloadDict (p : Payload) : TDict :=
  let d0 : TDict := []
  let d1 := if p.vin ≠ "" then dictInsert d0 "vin" (.str p.vin) else d0
  let d2 := match p.created_at with
    | some t => dictInsert d1 "timestamp" (.int t)
    | none => d1
  p.data.foldl parseStep d2

/-- Embedding of TeslaKafkaConsumer._parse_protobuf
(kafka_consumer.py lines 167-201): a whole-message parse failure is caught
inside the function and yields None; a successful parse yields the
payload dictionary. -/
def parse_protobuf : RawMessage → Option TDict
  | .malformed => none
  | .wellFormed p => some (payloadDict p)

end TeslaKafkaConsumer

/-- Subscriber callback, identified by an id.  Its execution effect is
abstracted to whether the call raises an exception (throws = true). -/
structure Callback where
  id : Nat
  throws : Bool
deriving DecidableEq

/-- Callback registry: the Python dict from field name to list of
callbacks, insertion ordered. -/
abbrev Registry := List (String × List Callback)

/-- Executing one subscriber callback: an exception becomes an
Except.error. -/
def runCallback (cb : Callback) : Except String Unit :=
  if cb.throws then Except.error "callback error" else Except.ok ()

/-- Embedding of register_callback (identical in kafka_consumer.py
lines 45-50 and mqtt_client.py lines 37-42): creates the entry with an
empty list when the data type is new, then appends the callback. -/
def register_callback (callbacks : Registry) (data_type : String) (cb : Callback) : Registry :=
  if callbacks.any (fun p => p.1 == data_type) then
    callbacks.map (fun p => if p.1 == data_type then (p.1, p.2 ++ [cb]) else p)
  else
    callbacks ++ [(data_type, [cb])]

/-- Callbacks registered for a field name: dict lookup with default []. -/
def registeredFor (callbacks : Registry) (data_type : String) : List Callback :=
  ((callbacks.find? (fun p => p.1 == data_type)).map (fun p => p.2)).getD []

/-- Record of one callback call made by a dispatcher: callback id, the
field value passed, the parsed-message context passed, and whether the
call returned normally (false when the callback raised and the dispatcher
caught the exception). -/
structure Invocation where
  cb : Nat
  value : TValue
  context : TDict
  ok : Bool
deriving DecidableEq

namespace TeslaKafkaConsumer

/-- Inner loop of TeslaKafkaConsumer._notify_callbacks
(kafka_consumer.py lines 294-305): each callback call sits in its own
try block, so an exception is caught (logged) and the loop continues with
the next callback. -/
def notifyList (v : TValue) (data : TDict) : List Callback → Except String (List Invocation)
  | [] => Except.ok []
  | cb :: rest =>
    let inv : Invocation :=
      match runCallback cb with
      | Except.ok _ => ⟨cb.id, v, data, true⟩
      | Except.error _ => ⟨cb.id, v, data, false⟩
    (notifyList v data rest).map (fun invs => inv :: invs)

/-- Embedding of TeslaKafkaConsumer._notify_callbacks
(kafka_consumer.py lines 289-305): iterate the registry in insertion
order; for every registered data type present as a key of the parsed
data dict, call its callbacks in order with (value, data). -/
def notify_callbacks (data : TDict) : Registry → Except String (List Invocation)
  | [] => Except.ok []
  | p :: rest =>
    match dictGet data p.1 with
    | some v =>
      (notifyList v data p.2).bind
        (fun invs => (notify_callbacks data rest).map (fun more => invs ++ more))
    | none => notify_callbacks data rest

/-- Embedding of TeslaKafkaConsumer._process_message
(kafka_consumer.py lines 145-165): parse the record; when the parse
returns None, return without dispatching; otherwise notify the callbacks.
The configured vehicle vin is part of the consumer state but the function
never reads it. -/
def process_message (vehicle_vin : String) (callbacks : Registry) (raw : RawMessage) :
    Except String (List Invocation) :=
  match parse_protobuf raw with
  | none => Except.ok []
  | some data => notify_callbacks data callbacks

end TeslaKafkaConsumer

/-- Constant RECONNECT_DELAY of kafka_consumer.py line 15, in seconds. -/
def RECONNECT_DELAY : Nat := 30

/-- Constant MAX_RECONNECT_ATTEMPTS of kafka_consumer.py line 16. -/
def MAX_RECONNECT_ATTEMPTS : Nat := 10

/-- Reconnect-relevant state of the consumer: the running flag and the
consecutive reconnect attempt counter. -/
structure ConsumerState where
  running : Bool
  reconnect_attempts : Nat
deriving DecidableEq

namespace TeslaKafkaConsumer

/-- Embedding of TeslaKafkaConsumer._handle_reconnect
(kafka_consumer.py lines 307-336): increment the attempt counter; past
the ceiling clear the running flag and return without sleeping (no delay
scheduled); otherwise sleep RECONNECT_DELAY times the attempt count.
The result pairs the new state with the delay slept, none when the
consumer stopped instead. -/
def handle_reconnect (s : ConsumerState) : ConsumerState × Option Nat :=
  let attempts := s.reconnect_attempts + 1
  if attempts > MAX_RECONNECT_ATTEMPTS then
    (⟨false, attempts⟩, none)
  else
    (⟨s.running, attempts⟩, some (RECONNECT_DELAY * attempts))

/-- The while-running loop of TeslaKafkaConsumer._connect_and_consume
(kafka_consumer.py lines 72-83) in the scenario where every connection
attempt fails with a transport error: each iteration issues one
connection attempt and then runs _handle_reconnect.  Returns how many
connection attempts were issued and the list of backoff delays slept.
Terminates because the attempt counter reaches the ceiling. -/
def connectLoopAllFail (s : ConsumerState) : Nat × List Nat :=
  if s.running then
    match h : handle_reconnect s with
    | (s2, some d) =>
      let rest := connectLoopAllFail s2
      (rest.1 + 1, d :: rest.2)
    | (_, none) => (1, [])
  else (0, [])
termination_by MAX_RECONNECT_ATTEMPTS + 1 - s.reconnect_attempts
decreasing_by
  simp only [handle_reconnect] at h
  split at h
  · injection h with h1 h2
    exact Option.noConfusion h2
  · rename_i hle
    injection h with h1 h2
    have h4 : s2.reconnect_attempts = s.reconnect_attempts + 1 := by
      rw [← h1]
    omega

end TeslaKafkaConsumer

/-- JSON value universe for the MQTT payloads (json.loads output). -/
inductive Json
  | null
  | bool (b : Bool)
  | num (q : Rat)
  | str (s : String)
  | arr (xs : List Json)
  | obj (fields : List (String × Json))

/-- Python dict lookup on a JSON object. -/
def jsonGet (fields : List (String × Json)) (k : String) : Option Json :=
  (fields.find? (fun p => p.1 == k)).map (fun p => p.2)

/-- Split a character list at every occurrence of the separator; the
result is never empty, matching Python str.split with a one-character
separator. -/
def splitCharsAux (c : Char) : List Char → List (List Char)
  | [] => [[]]
  | x :: xs =>
    match splitCharsAux c xs with
    | [] => [[x]]
    | seg :: rest =>
      if x = c then [] :: seg :: rest
      else (x :: seg) :: rest

/-- Python topic.split of mqtt_client.py line 124 with separator /,
written as structural recursion over the characters. -/
def splitOnSlash (s : String) : List String :=
  (splitCharsAux '/' s.data).map (fun cs => String.mk cs)

/-- Raw MQTT message payload: either text that json.loads parses, or text
on which json.loads raises, which the handler keeps as the decoded
string. -/
inductive MqttRaw
  | jsonText (j : Json)
  | plainText (s : String)

/-- Record of one callback call made by the MQTT dispatcher. -/
structure MqttInvocation where
  cb : Nat
  value : Json
  context : List (String × Json)
  ok : Bool

namespace TeslaMQTTClient

/-- Embedding of TeslaMQTTClient._extract_value (mqtt_client.py lines
191-210): a dict with a value key yields that entry; a dict with both
latitude and longitude, or any other dict, is returned as is; a direct
scalar is returned as is. -/
def extract_value (payload : Json) : Json :=
  match payload with
  | .obj fields =>
    match jsonGet fields "value" with
    | some v => v
    | none =>
      if (jsonGet fields "latitude").isSome && (jsonGet fields "longitude").isSome then
        payload
      else
        payload
  | v => v

/-- Inner loop of TeslaMQTTClient._notify_callbacks (mqtt_client.py lines
218-224): each callback call sits in its own try block, so an exception
is caught (logged) and the loop continues. -/
def notifyList (v : Json) (data : List (String × Json)) :
    List Callback → Except String (List MqttInvocation)
  | [] => Except.ok []
  | cb :: rest =>
    let inv : MqttInvocation :=
      match runCallback cb with
      | Except.ok _ => ⟨cb.id, v, data, true⟩
      | Except.error _ => ⟨cb.id, v, data, false⟩
    (notifyList v data rest).map (fun invs => inv :: invs)

/-- Parsed-message context built by TeslaMQTTClient._notify_callbacks
(mqtt_client.py line 216): a timestamp placeholder of None plus the one
field of the message. -/
def mqttData (field_name : String) (value : Json) : List (String × Json) :=
  [("timestamp", Json.null), (field_name, value)]

/-- Embedding of TeslaMQTTClient._notify_callbacks (mqtt_client.py lines
212-224): when the field name has a registry entry, build the context
dict and call that entry's callbacks in order with (value, data); any
other registry entry is ignored. -/
def notify_callbacks (callbacks : Registry) (field_name : String) (value : Json) :
    Except String (List MqttInvocation) :=
  match callbacks.find? (fun p => p.1 == field_name) with
  | some p => notifyList value (mqttData field_name value) p.2
  | none => Except.ok []

/-- Embedding of TeslaMQTTClient._handle_metrics_message (mqtt_client.py
lines 114-151): split the topic on slashes, drop the message when fewer
than four segments, take the field name from the last segment, parse the
payload as JSON with a plain-text fallback, extract the value and notify
the callbacks. -/
def handle_metrics_message (callbacks : Registry) (topic : String) (payload : MqttRaw) :
    Except String (List MqttInvocation) :=
  let topic_parts := splitOnSlash topic
  if topic_parts.length < 4 then Except.ok []
  else
    let field_name := topic_parts.getLastD ""
    let payloadJson : Json :=
      match payload with
      | .jsonText j => j
      | .plainText s => Json.str s
    let value := extract_value payloadJson
    notify_callbacks callbacks field_name value

end TeslaMQTTClient

/-- Arguments of one dispatched call, without its outcome: which callback
was called, with which value and which context. -/
def Invocation.call (i : Invocation) : Nat × TValue × TDict :=
  (i.cb, i.value, i.context)

/-- Arguments of one dispatched MQTT call, without its outcome. -/
def MqttInvocation.call (i : MqttInvocation) : Nat × Json × List (String × Json) :=
  (i.cb, i.value, i.context)

/-- The same callback made non-raising. -/
def clearCb (cb : Callback) : Callback :=
  ⟨cb.id, false⟩

/-- The same registry with every callback made non-raising. -/
def clearThrows (r : Registry) : Registry :=
  r.map (fun p => (p.1, p.2.map clearCb))

/-- Closed form of the call sequence the Kafka dispatcher produces:
registry entries in insertion order, entries whose data type is absent
from the message contribute nothing, the others contribute one invocation
per registered callback in registration order. -/
def expectedKafka (data : TDict) : Registry → List Invocation
  | [] => []
  | p :: rest =>
    (match dictGet data p.1 with
     | some v => p.2.map (fun cb => ⟨cb.id, v, data, !cb.throws⟩)
     | none => []) ++ expectedKafka data rest

/-! Helper lemmas. -/

theorem findq_append_of_some {α : Type} {p : α → Bool} :
    ∀ (l1 l2 : List α) (a : α), l1.find? p = some a → (l1 ++ l2).find? p = some a := by
  intro l1 l2 a h
  induction l1 with
  | nil => exact absurd h (by simp)
  | cons x rest ih =>
    simp only [List.cons_append, List.find?_cons] at h ⊢
    cases hx : p x with
    | true => simpa [hx] using h
    | false =>
      simp only [hx] at h ⊢
      exact ih h

theorem findq_append_of_none {α : Type} {p : α → Bool} :
    ∀ (l1 l2 : List α), l1.find? p = none → (l1 ++ l2).find? p = l2.find? p := by
  intro l1 l2 h
  induction l1 with
  | nil => rfl
  | cons x rest ih =>
    simp only [List.cons_append, List.find?_cons] at h ⊢
    cases hx : p x with
    | true => simp [hx] at h
    | false =>
      simp only [hx] at h ⊢
      exact ih h

theorem findq_map_of_key_eq {β : Type} (u : String × β → String × β)
    (hu : ∀ p, (u p).1 = p.1) (f : String) :
    ∀ r : List (String × β),
      (r.map u).find? (fun p => p.1 == f) = (r.find? (fun p => p.1 == f)).map u := by
  intro r
  induction r with
  | nil => rfl
  | cons q rest ih =>
    simp only [List.map_cons, List.find?_cons, hu q]
    cases hq : (q.1 == f) with
    | true => rfl
    | false => exact ih

theorem findq_isSome_of_any {α : Type} {p : α → Bool} :
    ∀ l : List α, l.any p = true → ∃ a, l.find? p = some a := by
  intro l h
  induction l with
  | nil => simp at h
  | cons x rest ih =>
    simp only [List.find?_cons]
    cases hx : p x with
    | true => exact ⟨x, rfl⟩
    | false =>
      simp only [List.any_cons, hx, Bool.false_or] at h
      exact ih h

theorem findq_none_of_any_false {α : Type} {p : α → Bool} :
    ∀ l : List α, l.any p = false → l.find? p = none := by
  intro l h
  induction l with
  | nil => rfl
  | cons x rest ih =>
    simp only [List.any_cons, Bool.or_eq_false_iff] at h
    simp only [List.find?_cons, h.1]
    exact ih h.2

theorem kafka_notifyList_eq :
    ∀ (v : TValue) (data : TDict) (cbs : List Callback),
      TeslaKafkaConsumer.notifyList v data cbs =
        Except.ok (cbs.map (fun cb => ⟨cb.id, v, data, !cb.throws⟩)) := by
  intro v data cbs
  induction cbs with
  | nil => rfl
  | cons cb rest ih =>
    obtain ⟨i, thr⟩ := cb
    cases thr <;>
      simp [TeslaKafkaConsumer.notifyList, ih, runCallback, Except.map]

theorem kafka_notify_eq :
    ∀ (data : TDict) (r : Registry),
      TeslaKafkaConsumer.notify_callbacks data r = Except.ok (expectedKafka data r) := by
  intro data r
  induction r with
  | nil => rfl
  | cons p rest ih =>
    simp only [TeslaKafkaConsumer.notify_callbacks, expectedKafka]
    cases hd : dictGet data p.1 with
    | none => exact ih
    | some v => simp [kafka_notifyList_eq, ih, Except.bind, Except.map]

theorem mqtt_notifyList_eq :
    ∀ (v : Json) (data : List (String × Json)) (cbs : List Callback),
      TeslaMQTTClient.notifyList v data cbs =
        Except.ok (cbs.map (fun cb => ⟨cb.id, v, data, !cb.throws⟩)) := by
  intro v data cbs
  induction cbs with
  | nil => rfl
  | cons cb rest ih =>
    obtain ⟨i, thr⟩ := cb
    cases thr <;>
      simp [TeslaMQTTClient.notifyList, ih, runCallback, Except.map]

theorem mqtt_notify_eq :
    ∀ (r : Registry) (f : String) (v : Json),
      TeslaMQTTClient.notify_callbacks r f v =
        Except.ok ((registeredFor r f).map
          (fun cb => ⟨cb.id, v, TeslaMQTTClient.mqttData f v, !cb.throws⟩)) := by
  intro r f v
  unfold TeslaMQTTClient.notify_callbacks registeredFor
  cases hf : r.find? (fun p => p.1 == f) with
  | none => rfl
  | some p => simp [mqtt_notifyList_eq]

theorem registeredFor_register_self :
    ∀ (r : Registry) (f : String) (cb : Callback),
      registeredFor (register_callback r f cb) f = registeredFor r f ++ [cb] := by
  intro r f cb
  unfold register_callback
  split
  · rename_i hany
    unfold registeredFor
    rw [findq_map_of_key_eq (fun p => if p.1 == f then (p.1, p.2 ++ [cb]) else p)
      (by intro p; dsimp only; split <;> rfl) f]
    obtain ⟨p0, hp0⟩ := findq_isSome_of_any r hany
    rw [hp0]
    have hpred := List.find?_some hp0
    simp only at hpred
    simp [eq_of_beq hpred]
  · rename_i hany
    have hfalse : r.any (fun p => p.1 == f) = false := by
      cases h2 : r.any (fun p => p.1 == f) with
      | true => exact absurd h2 hany
      | false => rfl
    have hnone : r.find? (fun p => p.1 == f) = none := findq_none_of_any_false r hfalse
    unfold registeredFor
    rw [findq_append_of_none _ _ hnone, hnone]
    simp [List.find?_cons]

theorem registeredFor_register_ne :
    ∀ (r : Registry) (f g : String) (cb : Callback), f ≠ g →
      registeredFor (register_callback r g cb) f = registeredFor r f := by
  intro r f g cb hne
  unfold register_callback
  split
  · unfold registeredFor
    rw [findq_map_of_key_eq (fun p => if p.1 == g then (p.1, p.2 ++ [cb]) else p)
      (by intro p; dsimp only; split <;> rfl) f]
    cases hf : r.find? (fun p => p.1 == f) with
    | none => rfl
    | some p0 =>
      have hpf := List.find?_some hf
      simp only at hpf
      have hpf2 : p0.1 = f := by simpa using hpf
      simp [hpf2, hne]
  · unfold registeredFor
    cases hf : r.find? (fun p => p.1 == f) with
    | none =>
      rw [findq_append_of_none _ _ hf]
      have hgf : (g == f) = false := beq_eq_false_iff_ne.mpr (fun h => hne h.symm)
      simp [List.find?_cons, hgf]
    | some p0 =>
      rw [findq_append_of_some _ _ _ hf]

theorem findq_clearThrows (f : String) :
    ∀ r : Registry,
      (clearThrows r).find? (fun p => p.1 == f) =
        (r.find? (fun p => p.1 == f)).map (fun p => (p.1, p.2.map clearCb)) := by
  intro r
  induction r with
  | nil => rfl
  | cons q rest ih =>
    simp only [clearThrows, List.map_cons, List.find?_cons] at ih ⊢
    cases hq : (q.1 == f) with
    | true => rfl
    | false => exact ih

theorem registeredFor_clearThrows :
    ∀ (r : Registry) (f : String),
      registeredFor (clearThrows r) f = (registeredFor r f).map clearCb := by
  intro r f
  unfold registeredFor
  rw [findq_clearThrows]
  cases r.find? (fun p => p.1 == f) <;> rfl

theorem expectedKafka_clearThrows_calls :
    ∀ (data : TDict) (r : Registry),
      (expectedKafka data (clearThrows r)).map Invocation.call =
        (expectedKafka data r).map Invocation.call := by
  intro data r
  induction r with
  | nil => rfl
  | cons p rest ih =>
    have hstep : clearThrows (p :: rest) = (p.1, p.2.map clearCb) :: clearThrows rest := rfl
    rw [hstep]
    simp only [expectedKafka]
    cases dictGet data p.1 with
    | none => simpa using ih
    | some v =>
      simp only [List.map_append, List.map_map, ih]
      congr 1

theorem dictGet_insert_of_ne :
    ∀ (m : TDict) (k k2 : String) (v : TValue), k ≠ k2 →
      dictGet (dictInsert m k v) k2 = dictGet m k2 := by
  intro m k k2 v hne
  unfold dictInsert
  split
  · unfold dictGet
    rw [findq_map_of_key_eq (fun p => if p.1 == k then (k, v) else p)
      (by intro p
          dsimp only
          split
          · rename_i h
            exact (eq_of_beq h).symm
          · rfl) k2]
    cases hf : m.find? (fun p => p.1 == k2) with
    | none => rfl
    | some p0 =>
      have hpf := List.find?_some hf
      simp only at hpf
      have hpf2 : p0.1 = k2 := by simpa using hpf
      simp [hpf2, Ne.symm hne]
  · unfold dictGet
    cases hf : m.find? (fun p => p.1 == k2) with
    | none =>
      rw [findq_append_of_none _ _ hf]
      have hkk : (k == k2) = false := beq_eq_false_iff_ne.mpr hne
      simp [List.find?_cons, hkk]
    | some p0 =>
      rw [findq_append_of_some _ _ _ hf]

theorem dictGet_foldl_parseStep :
    ∀ (l : List Datum) (acc : TDict) (k : String),
      (∀ f : Field, TeslaTelemetry.Field.Name f ≠ k) →
      dictGet (l.foldl TeslaKafkaConsumer.parseStep acc) k = dictGet acc k := by
  intro l
  induction l with
  | nil => intro acc k hk; rfl
  | cons d rest ih =>
    intro acc k hk
    simp only [List.foldl_cons]
    rw [ih _ k hk]
    unfold TeslaKafkaConsumer.parseStep
    cases TeslaKafkaConsumer.extract_value d.value with
    | none => rfl
    | some v => exact dictGet_insert_of_ne _ _ _ _ (hk d.key)

theorem connectLoop_go (s s2 : ConsumerState) (d : Nat)
    (hs : s.running = true)
    (h : TeslaKafkaConsumer.handle_reconnect s = (s2, some d)) :
    TeslaKafkaConsumer.connectLoopAllFail s =
      ((TeslaKafkaConsumer.connectLoopAllFail s2).1 + 1,
        d :: (TeslaKafkaConsumer.connectLoopAllFail s2).2) := by
  conv_lhs => unfold TeslaKafkaConsumer.connectLoopAllFail
  rw [if_pos hs]
  split
  · rename_i s3 d3 h3
    rw [h] at h3
    injection h3 with h1 h2
    injection h2 with h4
    rw [h1, h4]
  · rename_i s3 h3
    rw [h] at h3
    injection h3 with h1 h2
    exact Option.noConfusion h2

theorem connectLoop_go_stop (s s2 : ConsumerState)
    (hs : s.running = true)
    (h : TeslaKafkaConsumer.handle_reconnect s = (s2, none)) :
    TeslaKafkaConsumer.connectLoopAllFail s = (1, []) := by
  conv_lhs => unfold TeslaKafkaConsumer.connectLoopAllFail
  rw [if_pos hs]
  split
  · rename_i s3 d3 h3
    rw [h] at h3
    injection h3 with h1 h2
    exact Option.noConfusion h2
  · rfl

/-! Claim theorems. -/

/-- C1 counterexample: the Kafka consumer configured for vin
5YJ3E1EA1MF000000 receives a message whose vin is OTHERVIN000000000 and
still dispatches it — the callback registered for VehicleSpeed is
invoked, refuting the claim that such a message is discarded before
dispatch. -/
theorem c1_vin_filter_counterexample :
    TeslaKafkaConsumer.process_message "5YJ3E1EA1MF000000"
        [("VehicleSpeed", [⟨0, false⟩])]
        (RawMessage.wellFormed ⟨"OTHERVIN000000000", some 1700000000,
          [⟨Field.VehicleSpeed, ProtoValue.int_value 65⟩]⟩) =
      Except.ok [⟨0, TValue.int 65,
        [("vin", TValue.str "OTHERVIN000000000"), ("timestamp", TValue.int 1700000000),
         ("VehicleSpeed", TValue.int 65)], true⟩] ∧
    "OTHERVIN000000000" ≠ "5YJ3E1EA1MF000000" := by
  exact ⟨rfl, by decide⟩

/-- C1 amended: the Kafka consumer applies no VIN filter at all — the
result of processing a record does not depend on the configured vehicle
VIN, and every well-formed record is dispatched to the callbacks. -/
theorem c1_no_vin_filter :
    ∀ (cfg cfg2 : String) (r : Registry) (raw : RawMessage),
      TeslaKafkaConsumer.process_message cfg r raw =
        TeslaKafkaConsumer.process_message cfg2 r raw ∧
      ∀ p : Payload,
        TeslaKafkaConsumer.process_message cfg r (RawMessage.wellFormed p) =
          TeslaKafkaConsumer.notify_callbacks (TeslaKafkaConsumer.payloadDict p) r :=
  fun _ _ _ _ => ⟨rfl, fun _ => rfl⟩

/-- C2 counterexample: a callback registered under the pseudo field name
any is not invoked when a message with the (non-empty) field
VehicleSpeed is dispatched — neither by the MQTT dispatcher nor by the
Kafka dispatcher — refuting the claim that any-callbacks fire on every
message with non-empty fields. -/
theorem c2_any_counterexample :
    TeslaMQTTClient.notify_callbacks [("any", [⟨7, false⟩])] "VehicleSpeed" (Json.num 42) =
      Except.ok [] ∧
    TeslaMQTTClient.mqttData "VehicleSpeed" (Json.num 42) ≠ [] ∧
    TeslaKafkaConsumer.notify_callbacks [("VehicleSpeed", TValue.int 42)]
        [("any", [⟨7, false⟩])] = Except.ok [] := by
  exact ⟨rfl, List.cons_ne_nil _ _, rfl⟩

/-- C2 amended: the dispatcher implements no pseudo field — a callback
registered under the name any changes nothing about the dispatch of any
message whose field name is not literally any. -/
theorem c2_any_not_pseudo :
    ∀ (r : Registry) (cb : Callback) (f : String) (v : Json), f ≠ "any" →
      TeslaMQTTClient.notify_callbacks (register_callback r "any" cb) f v =
        TeslaMQTTClient.notify_callbacks r f v := by
  intro r cb f v hf
  rw [mqtt_notify_eq, mqtt_notify_eq, registeredFor_register_ne r f "any" cb hf]

/-- C2 amended witness at field VehicleSpeed. -/
theorem c2_any_not_pseudo_witness :
    ("VehicleSpeed" : String) ≠ "any" ∧
    TeslaMQTTClient.notify_callbacks (register_callback [] "any" ⟨7, false⟩)
        "VehicleSpeed" (Json.num 42) =
      TeslaMQTTClient.notify_callbacks [] "VehicleSpeed" (Json.num 42) :=
  ⟨by decide, c2_any_not_pseudo [] ⟨7, false⟩ "VehicleSpeed" (Json.num 42) (by decide)⟩

/-- C3: for the n-th consecutive failure with n from 1 to 10 the backoff
delay is RECONNECT_DELAY times n (30 × n seconds); the 11-th consecutive
failure clears the running flag, schedules no delay, and the whole
all-attempts-fail loop issues exactly 11 connection attempts with delays
30, 60, ..., 300 and then stops. -/
theorem c3_linear_backoff_and_stop :
    (∀ n : Nat, 1 ≤ n → n ≤ 10 →
      TeslaKafkaConsumer.handle_reconnect ⟨true, n - 1⟩ =
        (⟨true, n⟩, some (RECONNECT_DELAY * n))) ∧
    TeslaKafkaConsumer.handle_reconnect ⟨true, 10⟩ = (⟨false, 11⟩, none) ∧
    TeslaKafkaConsumer.connectLoopAllFail ⟨true, 0⟩ =
      (11, [30, 60, 90, 120, 150, 180, 210, 240, 270, 300]) := by
  refine ⟨?_, by decide, ?_⟩
  · intro n h1 h2
    interval_cases n <;> decide
  · have h10 : TeslaKafkaConsumer.connectLoopAllFail ⟨true, 10⟩ = (1, []) :=
      connectLoop_go_stop ⟨true, 10⟩ ⟨false, 11⟩ rfl (by decide)
    have h9 : TeslaKafkaConsumer.connectLoopAllFail ⟨true, 9⟩ = (2, [300]) := by
      rw [connectLoop_go ⟨true, 9⟩ ⟨true, 10⟩ 300 rfl (by decide), h10]
    have h8 : TeslaKafkaConsumer.connectLoopAllFail ⟨true, 8⟩ = (3, [270, 300]) := by
      rw [connectLoop_go ⟨true, 8⟩ ⟨true, 9⟩ 270 rfl (by decide), h9]
    have h7 : TeslaKafkaConsumer.connectLoopAllFail ⟨true, 7⟩ = (4, [240, 270, 300]) := by
      rw [connectLoop_go ⟨true, 7⟩ ⟨true, 8⟩ 240 rfl (by decide), h8]
    have h6 : TeslaKafkaConsumer.connectLoopAllFail ⟨true, 6⟩ = (5, [210, 240, 270, 300]) := by
      rw [connectLoop_go ⟨true, 6⟩ ⟨true, 7⟩ 210 rfl (by decide), h7]
    have h5 : TeslaKafkaConsumer.connectLoopAllFail ⟨true, 5⟩ =
        (6, [180, 210, 240, 270, 300]) := by
      rw [connectLoop_go ⟨true, 5⟩ ⟨true, 6⟩ 180 rfl (by decide), h6]
    have h4 : TeslaKafkaConsumer.connectLoopAllFail ⟨true, 4⟩ =
        (7, [150, 180, 210, 240, 270, 300]) := by
      rw [connectLoop_go ⟨true, 4⟩ ⟨true, 5⟩ 150 rfl (by decide), h5]
    have h3 : TeslaKafkaConsumer.connectLoopAllFail ⟨true, 3⟩ =
        (8, [120, 150, 180, 210, 240, 270, 300]) := by
      rw [connectLoop_go ⟨true, 3⟩ ⟨true, 4⟩ 120 rfl (by decide), h4]
    have h2 : TeslaKafkaConsumer.connectLoopAllFail ⟨true, 2⟩ =
        (9, [90, 120, 150, 180, 210, 240, 270, 300]) := by
      rw [connectLoop_go ⟨true, 2⟩ ⟨true, 3⟩ 90 rfl (by decide), h3]
    have h1 : TeslaKafkaConsumer.connectLoopAllFail ⟨true, 1⟩ =
        (10, [60, 90, 120, 150, 180, 210, 240, 270, 300]) := by
      rw [connectLoop_go ⟨true, 1⟩ ⟨true, 2⟩ 60 rfl (by decide), h2]
    rw [connectLoop_go ⟨true, 0⟩ ⟨true, 1⟩ 30 rfl (by decide), h1]

/-- C3 witness: after the third consecutive failure the delay is 90
seconds. -/
theorem c3_witness :
    (1 ≤ 3 ∧ 3 ≤ 10) ∧
    TeslaKafkaConsumer.handle_reconnect ⟨true, 2⟩ = (⟨true, 3⟩, some 90) :=
  ⟨⟨by decide, by decide⟩, c3_linear_backoff_and_stop.1 3 (by decide) (by decide)⟩

/-- C4: the decoded value's type is fully determined by the active wire
variant tag; exactly the unset and invalid containers decode to none;
and a datum whose value decodes to none contributes no entry to the
parsed fields dictionary. -/
theorem c4_tag_determines_type :
    ∀ v : ProtoValue,
      ((TeslaKafkaConsumer.extract_value v).map TValue.kind = tagKind v) ∧
      (TeslaKafkaConsumer.extract_value v = none ↔
        v = ProtoValue.unset ∨ v = ProtoValue.invalid) ∧
      (∀ (vin : String) (ca : Option Int) (pre : List Datum) (d : Datum),
        TeslaKafkaConsumer.extract_value d.value = none →
        TeslaKafkaConsumer.payloadDict ⟨vin, ca, pre ++ [d]⟩ =
          TeslaKafkaConsumer.payloadDict ⟨vin, ca, pre⟩) := by
  intro v
  refine ⟨?_, ?_, ?_⟩
  · cases v <;> rfl
  · cases v <;> simp [TeslaKafkaConsumer.extract_value]
  · intro vin ca pre d hd
    simp only [TeslaKafkaConsumer.payloadDict, List.foldl_append, List.foldl_cons,
      List.foldl_nil, TeslaKafkaConsumer.parseStep, hd]

/-- C4 witness: an invalid container decodes to none and an invalid
datum is omitted from the parsed dictionary. -/
theorem c4_witness :
    TeslaKafkaConsumer.extract_value ProtoValue.invalid = none ∧
    TeslaKafkaConsumer.payloadDict ⟨"5YJ3E1EA1MF000000", none,
        [⟨Field.Soc, ProtoValue.int_value 80⟩] ++ [⟨Field.Gear, ProtoValue.invalid⟩]⟩ =
      TeslaKafkaConsumer.payloadDict ⟨"5YJ3E1EA1MF000000", none,
        [⟨Field.Soc, ProtoValue.int_value 80⟩]⟩ :=
  ⟨by decide, (c4_tag_determines_type ProtoValue.invalid).2.2 "5YJ3E1EA1MF000000" none
    [⟨Field.Soc, ProtoValue.int_value 80⟩] ⟨Field.Gear, ProtoValue.invalid⟩ (by decide)⟩

/-- C5 counterexample: the decoder returns the schema constant names
ShiftStateD and ChargeStateCharging, not the plain strings D and
Charging claimed as the decoded values. -/
theorem c5_enum_name_counterexample :
    TeslaKafkaConsumer.extract_value (ProtoValue.shift_state_value ShiftState.ShiftStateD) =
      some (TValue.str "ShiftStateD") ∧
    TeslaKafkaConsumer.extract_value (ProtoValue.shift_state_value ShiftState.ShiftStateD) ≠
      some (TValue.str "D") ∧
    TeslaKafkaConsumer.extract_value (ProtoValue.charging_value ChargingState.ChargeStateCharging) =
      some (TValue.str "ChargeStateCharging") ∧
    TeslaKafkaConsumer.extract_value (ProtoValue.charging_value ChargingState.ChargeStateCharging) ≠
      some (TValue.str "Charging") :=
  ⟨rfl, by decide, rfl, by decide⟩

/-- C5 amended: a charging-state or shift-state variant always decodes
to the enum constant's symbolic name as a string (never its numeric
code), but the name is the schema constant name, e.g. ChargeStateCharging
and ShiftStateD. -/
theorem c5_enum_symbolic_name :
    ∀ (c : ChargingState) (s : ShiftState),
      TeslaKafkaConsumer.extract_value (ProtoValue.charging_value c) =
        some (TValue.str (ChargingState.Name c)) ∧
      TeslaKafkaConsumer.extract_value (ProtoValue.shift_state_value s) =
        some (TValue.str (ShiftState.Name s)) ∧
      (TeslaKafkaConsumer.extract_value (ProtoValue.charging_value c)).map TValue.kind =
        some TKind.string ∧
      (TeslaKafkaConsumer.extract_value (ProtoValue.shift_state_value s)).map TValue.kind =
        some TKind.string :=
  fun _ _ => ⟨rfl, rfl, rfl, rfl⟩

/-- C6: registering a callback appends it to the field's list, and
dispatching a message for that field invokes exactly the registered
callbacks, once each, in registration order, each receiving the field
value and the full parsed-message context. -/
theorem c6_fanout_registration_order :
    ∀ (r : Registry) (f : String) (cb : Callback) (v : Json),
      registeredFor (register_callback r f cb) f = registeredFor r f ++ [cb] ∧
      TeslaMQTTClient.notify_callbacks r f v =
        Except.ok ((registeredFor r f).map
          (fun c => ⟨c.id, v, TeslaMQTTClient.mqttData f v, !c.throws⟩)) :=
  fun r f cb v => ⟨registeredFor_register_self r f cb, mqtt_notify_eq r f v⟩

/-- C7: both dispatchers return normally (never an error) and make
exactly the same calls — same callbacks, same values, same contexts —
whether or not any of the registered callbacks raises: a raising
callback is caught per-callback and suppresses nothing. -/
theorem c7_callback_isolation :
    ∀ (data : TDict) (r : Registry) (f : String) (v : Json),
      (∃ invs invs2,
        TeslaKafkaConsumer.notify_callbacks data r = Except.ok invs ∧
        TeslaKafkaConsumer.notify_callbacks data (clearThrows r) = Except.ok invs2 ∧
        invs.map Invocation.call = invs2.map Invocation.call) ∧
      (∃ minvs minvs2,
        TeslaMQTTClient.notify_callbacks r f v = Except.ok minvs ∧
        TeslaMQTTClient.notify_callbacks (clearThrows r) f v = Except.ok minvs2 ∧
        minvs.map MqttInvocation.call = minvs2.map MqttInvocation.call) := by
  intro data r f v
  constructor
  · exact ⟨expectedKafka data r, expectedKafka data (clearThrows r),
      kafka_notify_eq data r, kafka_notify_eq data (clearThrows r),
      (expectedKafka_clearThrows_calls data r).symm⟩
  · refine ⟨_, _, mqtt_notify_eq r f v, mqtt_notify_eq (clearThrows r) f v, ?_⟩
    rw [registeredFor_clearThrows]
    simp [List.map_map, MqttInvocation.call, clearCb, Function.comp]

/-- C8: a malformed record parses to none, its dispatch step is skipped
entirely (no callback invoked), and processing any record returns
normally, never raising past the parser boundary. -/
theorem c8_parse_failure_skips_dispatch :
    TeslaKafkaConsumer.parse_protobuf RawMessage.malformed = none ∧
    (∀ (cfg : String) (r : Registry),
      TeslaKafkaConsumer.process_message cfg r RawMessage.malformed = Except.ok []) ∧
    (∀ (cfg : String) (r : Registry) (raw : RawMessage),
      ∃ invs, TeslaKafkaConsumer.process_message cfg r raw = Except.ok invs) := by
  refine ⟨rfl, fun _ _ => rfl, ?_⟩
  intro cfg r raw
  cases raw with
  | malformed => exact ⟨[], rfl⟩
  | wellFormed p =>
    exact ⟨expectedKafka (TeslaKafkaConsumer.payloadDict p) r,
      kafka_notify_eq (TeslaKafkaConsumer.payloadDict p) r⟩

/-- C9: an MQTT message on topic tesla/5YJ3E1EA1MF000000/v/VehicleSpeed
with payload value 42 invokes every subscriber registered for
VehicleSpeed with the value 42 and the context mapping with a None
timestamp and the VehicleSpeed entry. -/
theorem c9_mqtt_end_to_end :
    ∀ r : Registry,
      TeslaMQTTClient.handle_metrics_message r "tesla/5YJ3E1EA1MF000000/v/VehicleSpeed"
          (MqttRaw.jsonText (Json.obj [("value", Json.num 42)])) =
        Except.ok ((registeredFor r "VehicleSpeed").map
          (fun cb => ⟨cb.id, Json.num 42,
            [("timestamp", Json.null), ("VehicleSpeed", Json.num 42)], !cb.throws⟩)) := by
  intro r
  have h : TeslaMQTTClient.handle_metrics_message r "tesla/5YJ3E1EA1MF000000/v/VehicleSpeed"
      (MqttRaw.jsonText (Json.obj [("value", Json.num 42)])) =
      TeslaMQTTClient.notify_callbacks r "VehicleSpeed" (Json.num 42) := rfl
  rw [h, mqtt_notify_eq]
  rfl

/-- C10: the Kafka parser stores vin and timestamp in the same flat
dictionary as the telemetry fields, and callbacks registered under the
names vin and timestamp are dispatched with those metadata values
exactly like field callbacks. -/
theorem c10_metadata_flat_dispatch :
    ∀ (cfg : String) (p : Payload) (ts : Int) (cbs1 cbs2 : List Callback),
      p.vin ≠ "" → p.created_at = some ts →
      dictGet (TeslaKafkaConsumer.payloadDict p) "vin" = some (TValue.str p.vin) ∧
      dictGet (TeslaKafkaConsumer.payloadDict p) "timestamp" = some (TValue.int ts) ∧
      TeslaKafkaConsumer.process_message cfg [("vin", cbs1), ("timestamp", cbs2)]
          (RawMessage.wellFormed p) =
        Except.ok
          (cbs1.map (fun cb =>
            ⟨cb.id, TValue.str p.vin, TeslaKafkaConsumer.payloadDict p, !cb.throws⟩) ++
           cbs2.map (fun cb =>
            ⟨cb.id, TValue.int ts, TeslaKafkaConsumer.payloadDict p, !cb.throws⟩)) := by
  intro cfg p ts cbs1 cbs2 hv hts
  have hname_vin : ∀ f : Field, TeslaTelemetry.Field.Name f ≠ "vin" := by
    intro f; cases f <;> decide
  have hname_ts : ∀ f : Field, TeslaTelemetry.Field.Name f ≠ "timestamp" := by
    intro f; cases f <;> decide
  have hvin : dictGet (TeslaKafkaConsumer.payloadDict p) "vin" = some (TValue.str p.vin) := by
    simp only [TeslaKafkaConsumer.payloadDict]
    rw [dictGet_foldl_parseStep _ _ _ hname_vin, hts, if_pos hv]
    rfl
  have htime : dictGet (TeslaKafkaConsumer.payloadDict p) "timestamp" =
      some (TValue.int ts) := by
    simp only [TeslaKafkaConsumer.payloadDict]
    rw [dictGet_foldl_parseStep _ _ _ hname_ts, hts, if_pos hv]
    rfl
  refine ⟨hvin, htime, ?_⟩
  have h1 : TeslaKafkaConsumer.process_message cfg [("vin", cbs1), ("timestamp", cbs2)]
      (RawMessage.wellFormed p) =
      Except.ok (expectedKafka (TeslaKafkaConsumer.payloadDict p)
        [("vin", cbs1), ("timestamp", cbs2)]) :=
    kafka_notify_eq (TeslaKafkaConsumer.payloadDict p) [("vin", cbs1), ("timestamp", cbs2)]
  rw [h1]
  simp only [expectedKafka, hvin, htime]
  simp

/-- C10 witness at a concrete payload with vin and timestamp set. -/
theorem c10_witness :
    ("5YJ3E1EA1MF000000" : String) ≠ "" ∧
    TeslaKafkaConsumer.process_message "5YJ3E1EA1MF000000"
        [("vin", [⟨0, false⟩]), ("timestamp", [⟨1, false⟩])]
        (RawMessage.wellFormed ⟨"5YJ3E1EA1MF000000", some 1700000000, []⟩) =
      Except.ok
        [⟨0, TValue.str "5YJ3E1EA1MF000000",
            [("vin", TValue.str "5YJ3E1EA1MF000000"), ("timestamp", TValue.int 1700000000)],
            true⟩,
         ⟨1, TValue.int 1700000000,
            [("vin", TValue.str "5YJ3E1EA1MF000000"), ("timestamp", TValue.int 1700000000)],
            true⟩] :=
  ⟨by decide,
    (c10_metadata_flat_dispatch "5YJ3E1EA1MF000000"
      ⟨"5YJ3E1EA1MF000000", some 1700000000, []⟩ 1700000000
      [⟨0, false⟩] [⟨1, false⟩] (by decide) rfl).2.2⟩

end TeslaTelemetry
